import Mathlib

/-!
Shallow embedding of `src/lookup.go` from go-libp2p-kad-dht: the Kademlia
closest-peers lookup entry point (`GetClosestPeers`), its per-peer query
closure, the result finalizer, and the loggable-key helpers.

Modelling conventions:
- `PeerID` and `Address` are natural numbers; `kb.ConvertKey` and
  `kb.ConvertPeerID` are abstract functions carried in the model record.
- External collaborators (routing table `NearestPeers`, the cid/base32
  encoders, `pb.PBPeersToPeerInfos`, the RPC `findPeerSingle`) are
  parameters: the embedding is universally quantified over them.
- The generic query runner (`query.Run`, file `query.go`) is not part of
  the reviewed source; its outcome is modelled as an explicit input
  (`QueryRunOutcome`) holding the possibly-nil result record and the
  possibly-nil error, exactly the two values `Run` returns.
- The buffered result channel is modelled by its capacity together with
  the ordered trace of events the producer goroutine performs on it
  (sends followed by the deferred close).
-/

namespace DhtLookup

abbrev PeerID := Nat
abbrev Address := Nat

/-- XOR distance between two addresses, as used by `kb.SortClosestPeers`. -/
def xorDistance (a b : Address) : Nat := Nat.xor a b

/-- The ordering "closer to `target` first" on peers, given the address map. -/
def closerToKey (peerAddr : PeerID → Address) (target : Address) (a b : PeerID) : Prop :=
  xorDistance (peerAddr a) target ≤ xorDistance (peerAddr b) target

instance (peerAddr : PeerID → Address) (target : Address) :
    DecidableRel (closerToKey peerAddr target) :=
  fun _ _ => Nat.decLe _ _

instance (peerAddr : PeerID → Address) (target : Address) :
    IsTotal PeerID (closerToKey peerAddr target) :=
  ⟨fun a b => Nat.le_total (xorDistance (peerAddr a) target) (xorDistance (peerAddr b) target)⟩

instance (peerAddr : PeerID → Address) (target : Address) :
    IsTrans PeerID (closerToKey peerAddr target) :=
  ⟨fun _ _ _ => Nat.le_trans⟩

/-- `kb.SortClosestPeers`: sort peers ascending by XOR distance to `target`
(the external kbucket collaborator, per its contract in the spec, section 4.1:
ascending by distance, stable for ties). -/
def sortClosestPeers (peerAddr : PeerID → Address) (ps : List PeerID) (target : Address) :
    List PeerID :=
  List.insertionSort (closerToKey peerAddr target) ps

/-- The routing-table fan-out parameter `AlphaValue` (value 3 in this repository). -/
def AlphaValue : Nat := 3

/-- The model of the `IpfsDHT` receiver: its configuration and the external
collaborators `GetClosestPeers` consults. -/
structure DhtModel where
  bucketSize : Nat
  nearestPeers : Address → Nat → List PeerID
  peerAddr : PeerID → Address
  convertKey : List Char → Address

/-- `*dhtQueryResult` as returned by `query.Run`: only the `queriedSet`
field is read by `GetClosestPeers`; a `none` models a nil pointer, and the
list models `queriedSet.Peers()`. -/
structure DhtQueryRunResult where
  queriedSet : Option (List PeerID)
deriving DecidableEq

/-- The pair of values returned by `query.Run(timedCtx, tablepeers)`:
a possibly-nil result record and a possibly-nil error. -/
structure QueryRunOutcome where
  res : Option DhtQueryRunResult
  err : Option String
deriving DecidableEq

/-- What the producer goroutine sends on the `out` channel, lines 117-130:
nothing unless `res != nil && res.queriedSet != nil`; otherwise the queried
set sorted by distance to the key and truncated to `bucketSize` when longer. -/
def producerEmits (m : DhtModel) (key : List Char) (outcome : QueryRunOutcome) :
    List PeerID :=
  match outcome.res with
  | none => []
  | some r =>
    match r.queriedSet with
    | none => []
    | some qs =>
      let sorted := sortClosestPeers m.peerAddr qs (m.convertKey key)
      if sorted.length > m.bucketSize then sorted.take m.bucketSize else sorted

/-- Whether line 119 (`dht.routingTable.ResetCplRefreshedAtForID`) runs:
exactly the guard `res != nil && res.queriedSet != nil` of line 117. -/
def refreshFired (outcome : QueryRunOutcome) : Bool :=
  match outcome.res with
  | none => false
  | some r => r.queriedSet.isSome

/-- An event performed by the producer goroutine on the `out` channel. -/
inductive ChanEvent where
  | send (p : PeerID)
  | close
deriving DecidableEq

/-- The successful return of `GetClosestPeers` plus what its goroutine does:
the channel capacity (`make(chan peer.ID, dht.bucketSize)`), the timeout in
seconds put on the run context (`context.WithTimeout(ctx, time.Minute)`),
the peers sent on the channel, and whether the refresh signal fired. -/
structure LookupRun where
  capacity : Nat
  runTimeoutSeconds : Nat
  emitted : List PeerID
  refresh : Bool
deriving DecidableEq

/-- The ordered channel trace of the producer goroutine: each emitted peer
is sent, then the deferred `close(out)` runs once. -/
def runTrace (run : LookupRun) : List ChanEvent :=
  run.emitted.map ChanEvent.send ++ [ChanEvent.close]

/-- Result of a `GetClosestPeers` call: either `(nil, err)` with no channel
and no goroutine, or `(out, nil)` with the goroutine's behaviour recorded. -/
inductive LookupResult where
  | failure (e : String)
  | success (run : LookupRun)
deriving DecidableEq

/-- `kb.ErrLookupFailure` (external kbucket collaborator). -/
def errLookupFailure : String := "failed to find any peer in table"

/-- Line 72: `dht.routingTable.NearestPeers(kb.ConvertKey(key), AlphaValue)`. -/
def getClosestPeersSeed (m : DhtModel) (key : List Char) : List PeerID :=
  m.nearestPeers (m.convertKey key) AlphaValue

/-- `GetClosestPeers`, lines 70-134, as a function of the model, the key and
the outcome the query runner would produce: if the seed list is empty it
returns `kb.ErrLookupFailure` and starts nothing; otherwise it returns the
channel (capacity `bucketSize`) and the goroutine runs the query under a
one-minute timeout, fires the refresh per the line-117 guard, sends the
sorted truncated queried set and closes the channel. -/
def getClosestPeers (m : DhtModel) (key : List Char) (outcome : QueryRunOutcome) :
    LookupResult :=
  let tablepeers := getClosestPeersSeed m key
  if tablepeers.isEmpty then
    LookupResult.failure errLookupFailure
  else
    LookupResult.success
      { capacity := m.bucketSize
        runTimeoutSeconds := 60
        emitted := producerEmits m key outcome
        refresh := refreshFired outcome }

/-- `*dhtQueryResult` as built by the per-peer query closure (line 103):
only `closerPeers` is set. -/
structure DhtQueryResult where
  closerPeers : List PeerID
deriving DecidableEq

/-- `pmes`, the `findPeerSingle` response: its `GetCloserPeers()` field,
raw protobuf peer records modelled as naturals. -/
structure FindPeerResp where
  closerPeers : List Nat
deriving DecidableEq

/-- The body of the per-peer query closure, lines 82-104, as a function of
the RPC outcome `resp` (the values `findPeerSingle` returns) and of the
abstract converter `pb.PBPeersToPeerInfos`: on RPC error return `(nil, err)`
after a debug log; on success return the converted closer peers. -/
def queryFnStep (pbConvert : List Nat → List PeerID)
    (resp : Except String FindPeerResp) : Except String DhtQueryResult :=
  match resp with
  | Except.error e => Except.error e
  | Except.ok pmes => Except.ok { closerPeers := pbConvert pmes.closerPeers }

/-- `strings.IndexByte(s, c)`: index of the first occurrence of `c` in `s`,
`none` modelling the -1 of the original. -/
def indexByte (c : Char) : List Char → Option Nat
  | [] => none
  | x :: xs => if x = c then some 0 else (indexByte c xs).map (· + 1)

/-- Lines 38-44 and 46: pick the cid rendering of `cstr` when `cid.Cast`
succeeds, else its base32 encoding, and build `"/" + proto + "/" + encStr`.
The cid and base32 encoders are external libraries, taken as parameters. -/
def formatKeyPath (cidCast : List Char → Option (List Char))
    (b32enc : List Char → List Char) (proto cstr : List Char) : List Char :=
  let encStr :=
    match cidCast cstr with
    | some s => s
    | none => b32enc cstr
  '/' :: (proto ++ '/' :: encStr)

/-- `tryFormatLoggableKey`, lines 20-47: result value paired with the
possibly-nil error. Empty key: error with empty value. Key starting with a
slash but containing no second slash: error with the original key as value.
Otherwise format `proto` and `cstr` per the path or provider case. -/
def tryFormatLoggableKey (cidCast : List Char → Option (List Char))
    (b32enc : List Char → List Char) (k : List Char) : List Char × Option String :=
  match k with
  | [] => ([], some "loggableKey is empty")
  | c0 :: rest =>
    if c0 = '/' then
      match indexByte '/' rest with
      | none => (c0 :: rest, some "loggableKey starts with a slash but is not a path")
      | some protoEnd =>
        (formatKeyPath cidCast b32enc (rest.take protoEnd) (rest.drop (protoEnd + 1)),
          none)
    else
      (formatKeyPath cidCast b32enc "provider".toList (c0 :: rest), none)

/-- `loggableKey`, lines 49-60: always returns a one-entry map whose `key`
entry is the formatted key on success and the original key when
`tryFormatLoggableKey` errs (the error is only debug-logged). -/
def loggableKey (cidCast : List Char → Option (List Char))
    (b32enc : List Char → List Char) (k : List Char) : List (String × List Char) :=
  match tryFormatLoggableKey cidCast b32enc k with
  | (newKey, none) => [("key", newKey)]
  | (_, some _) => [("key", k)]

/-! Concrete models and inputs used by the witnesses. -/

/-- A model whose routing table knows no peers. -/
def mEmpty : DhtModel :=
  { bucketSize := 2
    nearestPeers := fun _ _ => []
    peerAddr := fun p => p
    convertKey := fun _ => 0 }

/-- A model with two seed peers and bucket size 2, identity addressing. -/
def mTwo : DhtModel :=
  { bucketSize := 2
    nearestPeers := fun _ _ => [1, 2]
    peerAddr := fun p => p
    convertKey := fun _ => 0 }

/-- A model whose routing table honours the `NearestPeers` count contract. -/
def mContract : DhtModel :=
  { bucketSize := 2
    nearestPeers := fun _ c => List.range c
    peerAddr := fun p => p
    convertKey := fun _ => 0 }

/-- A `query.Run` outcome for a run that merely timed out with zero
successful queries. Modelled from the spec: `query.Run` itself (file
`query.go`) is not part of the reviewed source; per the spec (sections 4.3
and 7) a timeout is "not an error by itself; finalization proceeds with
partial results", so the run hands back its (here empty) accumulated
queried set together with the context deadline error. -/
def timedOutZeroSuccessOutcome : QueryRunOutcome :=
  { res := some { queriedSet := some [] }
    err := some "context deadline exceeded" }

/-! Helper lemmas shared by the claim theorems. -/

theorem sortClosestPeers_sorted (peerAddr : PeerID → Address) (ps : List PeerID)
    (target : Address) :
    List.Sorted (closerToKey peerAddr target) (sortClosestPeers peerAddr ps target) :=
  List.sorted_insertionSort (closerToKey peerAddr target) ps

theorem sortClosestPeers_perm (peerAddr : PeerID → Address) (ps : List PeerID)
    (target : Address) :
    List.Perm (sortClosestPeers peerAddr ps target) ps :=
  List.perm_insertionSort (closerToKey peerAddr target) ps

theorem producerEmits_some (m : DhtModel) (key : List Char) (qs : List PeerID)
    (err : Option String) :
    producerEmits m key { res := some { queriedSet := some qs }, err := err } =
      if (sortClosestPeers m.peerAddr qs (m.convertKey key)).length > m.bucketSize
      then (sortClosestPeers m.peerAddr qs (m.convertKey key)).take m.bucketSize
      else sortClosestPeers m.peerAddr qs (m.convertKey key) := rfl

theorem outcome_eta (outcome : QueryRunOutcome) (r : DhtQueryRunResult)
    (qs : List PeerID) (hres : outcome.res = some r) (hqs : r.queriedSet = some qs) :
    outcome = { res := some { queriedSet := some qs }, err := outcome.err } := by
  rcases outcome with ⟨res, err⟩
  rcases r with ⟨qset⟩
  dsimp only at hres hqs
  subst hqs
  subst hres
  rfl

theorem producerEmits_eq_take (m : DhtModel) (key : List Char)
    (outcome : QueryRunOutcome) (r : DhtQueryRunResult) (qs : List PeerID)
    (hres : outcome.res = some r) (hqs : r.queriedSet = some qs) :
    producerEmits m key outcome =
      (sortClosestPeers m.peerAddr qs (m.convertKey key)).take m.bucketSize := by
  rw [outcome_eta outcome r qs hres hqs, producerEmits_some]
  by_cases h : (sortClosestPeers m.peerAddr qs (m.convertKey key)).length > m.bucketSize
  · simp [h]
  · simp only [h, if_false]
    exact (List.take_of_length_le (Nat.le_of_not_lt h)).symm

theorem producerEmits_length_le (m : DhtModel) (key : List Char)
    (outcome : QueryRunOutcome) :
    (producerEmits m key outcome).length ≤ m.bucketSize := by
  rcases outcome with ⟨res, err⟩
  cases res with
  | none => exact Nat.zero_le _
  | some r =>
    rcases r with ⟨qset⟩
    cases qset with
    | none => exact Nat.zero_le _
    | some qs =>
      rw [producerEmits_some]
      by_cases h : (sortClosestPeers m.peerAddr qs (m.convertKey key)).length > m.bucketSize
      · simp [h, List.length_take]
      · simp only [h, if_false]
        exact Nat.le_of_not_lt h

theorem producerEmits_sorted (m : DhtModel) (key : List Char)
    (outcome : QueryRunOutcome) :
    List.Sorted (closerToKey m.peerAddr (m.convertKey key))
      (producerEmits m key outcome) := by
  rcases outcome with ⟨res, err⟩
  cases res with
  | none => exact List.sorted_nil
  | some r =>
    rcases r with ⟨qset⟩
    cases qset with
    | none => exact List.sorted_nil
    | some qs =>
      rw [producerEmits_some]
      by_cases h : (sortClosestPeers m.peerAddr qs (m.convertKey key)).length > m.bucketSize
      · simp only [h, if_true]
        exact (sortClosestPeers_sorted m.peerAddr qs (m.convertKey key)).sublist
          (List.take_sublist _ _)
      · simp only [h, if_false]
        exact sortClosestPeers_sorted m.peerAddr qs (m.convertKey key)

theorem count_close_sends (l : List PeerID) :
    (l.map ChanEvent.send).count ChanEvent.close = 0 := by
  rw [List.count_eq_zero]
  intro h
  rcases List.mem_map.mp h with ⟨p, _, hp⟩
  exact ChanEvent.noConfusion hp

theorem runTrace_count_close (run : LookupRun) :
    (runTrace run).count ChanEvent.close = 1 := by
  unfold runTrace
  rw [List.count_append, count_close_sends]
  simp

theorem runTrace_drop (run : LookupRun) :
    (runTrace run).drop run.emitted.length = [ChanEvent.close] := by
  unfold runTrace
  rw [← List.length_map run.emitted ChanEvent.send, List.drop_left]

theorem getClosestPeers_success_shape (m : DhtModel) (key : List Char)
    (outcome : QueryRunOutcome) (h : ¬getClosestPeersSeed m key = []) :
    getClosestPeers m key outcome =
      LookupResult.success
        { capacity := m.bucketSize
          runTimeoutSeconds := 60
          emitted := producerEmits m key outcome
          refresh := refreshFired outcome } := by
  unfold getClosestPeers
  simp [List.isEmpty_iff, h]

theorem tryFormat_slash_none (cidCast : List Char → Option (List Char))
    (b32enc : List Char → List Char) (rest : List Char)
    (hidx : indexByte '/' rest = none) :
    tryFormatLoggableKey cidCast b32enc ('/' :: rest) =
      ('/' :: rest, some "loggableKey starts with a slash but is not a path") := by
  simp [tryFormatLoggableKey, hidx]

theorem tryFormat_slash_some (cidCast : List Char → Option (List Char))
    (b32enc : List Char → List Char) (rest : List Char) (n : Nat)
    (hidx : indexByte '/' rest = some n) :
    tryFormatLoggableKey cidCast b32enc ('/' :: rest) =
      (formatKeyPath cidCast b32enc (rest.take n) (rest.drop (n + 1)), none) := by
  simp [tryFormatLoggableKey, hidx]

theorem tryFormat_noslash (cidCast : List Char → Option (List Char))
    (b32enc : List Char → List Char) (c0 : Char) (rest : List Char) (hc : ¬c0 = '/') :
    tryFormatLoggableKey cidCast b32enc (c0 :: rest) =
      (formatKeyPath cidCast b32enc "provider".toList (c0 :: rest), none) := by
  simp [tryFormatLoggableKey, hc]

/-! Claim theorems. -/

/-- C1: `GetClosestPeers` returns a non-nil error exactly when the routing
table's `NearestPeers` seed list for the key is empty; in that case the
error is `kb.ErrLookupFailure`, the failure carries no channel, and the
query runner's outcome is irrelevant (the goroutine is never started, so
zero peer queries are issued): every outcome yields the same failure. -/
theorem getClosestPeers_error_iff_empty_seed (m : DhtModel) (key : List Char)
    (outcome : QueryRunOutcome) :
    ((∃ e, getClosestPeers m key outcome = LookupResult.failure e) ↔
      getClosestPeersSeed m key = []) ∧
    (getClosestPeersSeed m key = [] →
      ∀ outcome2 : QueryRunOutcome,
        getClosestPeers m key outcome2 = LookupResult.failure errLookupFailure) ∧
    (∀ e, getClosestPeers m key outcome = LookupResult.failure e →
      e = errLookupFailure) := by
  refine ⟨⟨?_, ?_⟩, ?_, ?_⟩
  · rintro ⟨e, he⟩
    by_cases h : getClosestPeersSeed m key = []
    · exact h
    · rw [getClosestPeers_success_shape m key outcome h] at he
      exact LookupResult.noConfusion he
  · intro h
    exact ⟨errLookupFailure, by unfold getClosestPeers; simp [List.isEmpty_iff, h]⟩
  · intro h outcome2
    unfold getClosestPeers
    simp [List.isEmpty_iff, h]
  · intro e he
    by_cases h : getClosestPeersSeed m key = []
    · unfold getClosestPeers at he
      simp [List.isEmpty_iff, h] at he
      exact he.symm
    · rw [getClosestPeers_success_shape m key outcome h] at he
      exact LookupResult.noConfusion he

/-- C1 witness: on a model with an empty routing table the call fails with
`kb.ErrLookupFailure`. -/
theorem getClosestPeers_error_iff_empty_seed_w :
    getClosestPeers mEmpty [] { res := none, err := none } =
      LookupResult.failure errLookupFailure :=
  (getClosestPeers_error_iff_empty_seed mEmpty [] { res := none, err := none }).2.1
    rfl { res := none, err := none }

/-- C2: whenever the run's result record and its queried set are non-nil,
the peers the producer sends are exactly the queried set sorted ascending
by XOR distance to the key and truncated to `bucketSize`; hence the
delivered sequence has length at most `bucketSize` and no distance
inversions. -/
theorem emitted_sorted_truncated (m : DhtModel) (key : List Char)
    (outcome : QueryRunOutcome) (r : DhtQueryRunResult) (qs : List PeerID)
    (hres : outcome.res = some r) (hqs : r.queriedSet = some qs) :
    producerEmits m key outcome =
      (sortClosestPeers m.peerAddr qs (m.convertKey key)).take m.bucketSize ∧
    (producerEmits m key outcome).length ≤ m.bucketSize ∧
    List.Sorted (closerToKey m.peerAddr (m.convertKey key))
      (producerEmits m key outcome) :=
  ⟨producerEmits_eq_take m key outcome r qs hres hqs,
    producerEmits_length_le m key outcome,
    producerEmits_sorted m key outcome⟩

/-- C2 witness: a concrete queried set of three peers is sorted by distance
and truncated to the bucket size of two. -/
theorem emitted_sorted_truncated_w :
    producerEmits mTwo [] { res := some { queriedSet := some [5, 1, 2] }, err := none } =
      (sortClosestPeers mTwo.peerAddr [5, 1, 2] (mTwo.convertKey [])).take mTwo.bucketSize ∧
    (producerEmits mTwo []
      { res := some { queriedSet := some [5, 1, 2] }, err := none }).length ≤
      mTwo.bucketSize ∧
    List.Sorted (closerToKey mTwo.peerAddr (mTwo.convertKey []))
      (producerEmits mTwo [] { res := some { queriedSet := some [5, 1, 2] }, err := none }) :=
  emitted_sorted_truncated mTwo [] _ _ [5, 1, 2] rfl rfl

/-- C5: the per-peer query closure returns, on RPC success, exactly the
closer peers of the `findPeerSingle` response converted by
`pb.PBPeersToPeerInfos`, and, on RPC failure, that failure with no
discovered peers; and a query-run error never changes what the lookup
returns (it is only debug-logged): the lookup result is independent of the
error component of the run outcome. -/
theorem queryFnStep_exact (pbConvert : List Nat → List PeerID) (e : String)
    (pmes : FindPeerResp) (m : DhtModel) (key : List Char)
    (res : Option DhtQueryRunResult) (err : Option String) :
    queryFnStep pbConvert (Except.error e) = Except.error e ∧
    queryFnStep pbConvert (Except.ok pmes) =
      Except.ok { closerPeers := pbConvert pmes.closerPeers } ∧
    getClosestPeers m key { res := res, err := err } =
      getClosestPeers m key { res := res, err := none } :=
  ⟨rfl, rfl, rfl⟩

/-- C10: the seed is requested with count `AlphaValue`, so under the
`NearestPeers` contract (at most `count` peers returned) the initial work
queue never exceeds α peers. -/
theorem seed_uses_alpha (m : DhtModel) (key : List Char)
    (hcontract : ∀ a c, (m.nearestPeers a c).length ≤ c) :
    getClosestPeersSeed m key = m.nearestPeers (m.convertKey key) AlphaValue ∧
    (getClosestPeersSeed m key).length ≤ AlphaValue :=
  ⟨rfl, hcontract (m.convertKey key) AlphaValue⟩

/-- C10 witness: on a model honouring the count contract the seed has at
most `AlphaValue` peers. -/
theorem seed_uses_alpha_w :
    getClosestPeersSeed mContract [] =
      mContract.nearestPeers (mContract.convertKey []) AlphaValue ∧
    (getClosestPeersSeed mContract []).length ≤ AlphaValue :=
  seed_uses_alpha mContract [] (fun a c => by simp [mContract])

/-- C3: failing input for the claim — at the spec-modelled outcome of a run
that merely timed out with zero successful queries (a non-nil result
carrying its empty queried set together with the deadline error), the
line-117 guard holds, so the refresh signal `ResetCplRefreshedAtForID`
fires, contradicting the claim and the comment on line 118 that the
refresh marks a successful query. -/
theorem refreshFired_on_timed_out_run :
    refreshFired timedOutZeroSuccessOutcome = true ∧
    timedOutZeroSuccessOutcome.err = some "context deadline exceeded" ∧
    producerEmits mTwo [] timedOutZeroSuccessOutcome = [] :=
  ⟨rfl, rfl, rfl⟩

/-- C4: with a non-empty seed, `GetClosestPeers` never surfaces a deadline,
cancellation or query-run error: whatever the run outcome (its error
included), the caller already holds the channel, the run context carries a
sixty-second timeout, and the goroutine sends the (possibly empty) emitted
sequence and then its deferred close ends the trace — a success, never a
failure. -/
theorem getClosestPeers_swallows_run_error (m : DhtModel) (key : List Char)
    (outcome : QueryRunOutcome) (h : ¬getClosestPeersSeed m key = []) :
    ∃ run : LookupRun,
      getClosestPeers m key outcome = LookupResult.success run ∧
      run.runTimeoutSeconds = 60 ∧
      run.emitted = producerEmits m key outcome ∧
      runTrace run = run.emitted.map ChanEvent.send ++ [ChanEvent.close] :=
  ⟨_, getClosestPeers_success_shape m key outcome h, rfl, rfl, rfl⟩

/-- C4 witness: a run outcome with a nil result and an error still yields a
success whose trace is the lone close: an empty result sequence, no error. -/
theorem getClosestPeers_swallows_run_error_w :
    ∃ run : LookupRun,
      getClosestPeers mTwo [] { res := none, err := some "query run error" } =
        LookupResult.success run ∧
      run.runTimeoutSeconds = 60 ∧
      run.emitted = producerEmits mTwo [] { res := none, err := some "query run error" } ∧
      runTrace run = run.emitted.map ChanEvent.send ++ [ChanEvent.close] :=
  getClosestPeers_swallows_run_error mTwo []
    { res := none, err := some "query run error" } (by decide)

/-- C6: sorting by distance and truncating to `bucketSize` preserve
identifier uniqueness: if the queried set holds no duplicate PeerID,
neither does the emitted result sequence. -/
theorem emitted_nodup (m : DhtModel) (key : List Char) (outcome : QueryRunOutcome)
    (r : DhtQueryRunResult) (qs : List PeerID) (hres : outcome.res = some r)
    (hqs : r.queriedSet = some qs) (hnd : qs.Nodup) :
    (producerEmits m key outcome).Nodup := by
  rw [producerEmits_eq_take m key outcome r qs hres hqs]
  exact (((sortClosestPeers_perm m.peerAddr qs (m.convertKey key)).symm.nodup hnd)).sublist
    (List.take_sublist _ _)

/-- C6 witness: a duplicate-free concrete queried set stays duplicate-free
after sorting and truncation. -/
theorem emitted_nodup_w :
    (producerEmits mTwo []
      { res := some { queriedSet := some [5, 1, 2] }, err := none }).Nodup :=
  emitted_nodup mTwo [] _ _ [5, 1, 2] rfl rfl (by decide)

/-- C7: the result channel is created with capacity `bucketSize`, and the
producer pushes the emitted peers closest-first and then signals
end-of-sequence with its single deferred close: a finite single-pass
trace. -/
theorem channel_capacity_closest_first (m : DhtModel) (key : List Char)
    (outcome : QueryRunOutcome) (h : ¬getClosestPeersSeed m key = []) :
    ∃ run : LookupRun,
      getClosestPeers m key outcome = LookupResult.success run ∧
      run.capacity = m.bucketSize ∧
      runTrace run = run.emitted.map ChanEvent.send ++ [ChanEvent.close] ∧
      List.Sorted (closerToKey m.peerAddr (m.convertKey key)) run.emitted :=
  ⟨_, getClosestPeers_success_shape m key outcome h, rfl, rfl,
    producerEmits_sorted m key outcome⟩

/-- C7 witness: on a concrete run the channel capacity is the bucket size
and the trace is the sorted sends followed by the close. -/
theorem channel_capacity_closest_first_w :
    ∃ run : LookupRun,
      getClosestPeers mTwo [] { res := some { queriedSet := some [5, 1, 2] }, err := none } =
        LookupResult.success run ∧
      run.capacity = mTwo.bucketSize ∧
      runTrace run = run.emitted.map ChanEvent.send ++ [ChanEvent.close] ∧
      List.Sorted (closerToKey mTwo.peerAddr (mTwo.convertKey [])) run.emitted :=
  channel_capacity_closest_first mTwo []
    { res := some { queriedSet := some [5, 1, 2] }, err := none } (by decide)

/-- C9: the producer sends at most `bucketSize` peers into the channel of
capacity `bucketSize`, so every send fits the buffer even if the caller
never reads, and the trace holds exactly one close, placed after all the
sends. -/
theorem producer_sends_bounded_single_close (m : DhtModel) (key : List Char)
    (outcome : QueryRunOutcome) (h : ¬getClosestPeersSeed m key = []) :
    ∃ run : LookupRun,
      getClosestPeers m key outcome = LookupResult.success run ∧
      run.emitted.length ≤ run.capacity ∧
      run.capacity = m.bucketSize ∧
      (runTrace run).count ChanEvent.close = 1 ∧
      (runTrace run).drop run.emitted.length = [ChanEvent.close] :=
  ⟨_, getClosestPeers_success_shape m key outcome h,
    producerEmits_length_le m key outcome, rfl, runTrace_count_close _, runTrace_drop _⟩

/-- C9 witness: on a concrete overfull queried set the producer sends
exactly two peers (the capacity) and closes once afterwards. -/
theorem producer_sends_bounded_single_close_w :
    ∃ run : LookupRun,
      getClosestPeers mTwo [] { res := some { queriedSet := some [5, 1, 2] }, err := none } =
        LookupResult.success run ∧
      run.emitted.length ≤ run.capacity ∧
      run.capacity = mTwo.bucketSize ∧
      (runTrace run).count ChanEvent.close = 1 ∧
      (runTrace run).drop run.emitted.length = [ChanEvent.close] :=
  producer_sends_bounded_single_close mTwo []
    { res := some { queriedSet := some [5, 1, 2] }, err := none } (by decide)

/-- C8: `tryFormatLoggableKey` errs exactly when the key is empty or starts
with a slash but holds no second slash; in the slash case the original key
is returned alongside the error; and `loggableKey` never fails: it always
yields a one-entry map whose `key` entry is the original key when the
formatting errs and the formatted key otherwise. -/
theorem tryFormatLoggableKey_spec (cidCast : List Char → Option (List Char))
    (b32enc : List Char → List Char) (k : List Char) :
    ((tryFormatLoggableKey cidCast b32enc k).2.isSome = true ↔
      (k = [] ∨ ∃ rest, k = '/' :: rest ∧ indexByte '/' rest = none)) ∧
    (∀ rest, k = '/' :: rest → indexByte '/' rest = none →
      (tryFormatLoggableKey cidCast b32enc k).1 = k) ∧
    (∃ v, loggableKey cidCast b32enc k = [("key", v)] ∧
      ((tryFormatLoggableKey cidCast b32enc k).2.isSome = true → v = k) ∧
      ((tryFormatLoggableKey cidCast b32enc k).2 = none →
        v = (tryFormatLoggableKey cidCast b32enc k).1)) := by
  cases k with
  | nil =>
    refine ⟨?_, ?_, ?_⟩
    · simp [tryFormatLoggableKey]
    · intro rest h h2
      simp at h
    · exact ⟨[], rfl, fun _ => rfl, fun hn => Option.noConfusion hn⟩
  | cons c0 rest =>
    by_cases hc : c0 = '/'
    · subst hc
      cases hidx : indexByte '/' rest with
      | none =>
        refine ⟨?_, ?_, ?_⟩
        · rw [tryFormat_slash_none cidCast b32enc rest hidx]
          exact ⟨fun _ => Or.inr ⟨rest, rfl, hidx⟩, fun _ => rfl⟩
        · intro rest2 h1 h2
          rw [tryFormat_slash_none cidCast b32enc rest hidx]
        · refine ⟨'/' :: rest, ?_, fun _ => rfl, ?_⟩
          · simp [loggableKey, tryFormat_slash_none cidCast b32enc rest hidx]
          · rw [tryFormat_slash_none cidCast b32enc rest hidx]
            intro hn
            exact Option.noConfusion hn
      | some n =>
        refine ⟨?_, ?_, ?_⟩
        · rw [tryFormat_slash_some cidCast b32enc rest n hidx]
          constructor
          · intro habs
            exact absurd habs (by simp)
          · rintro (h | ⟨rest2, h1, h2⟩)
            · exact absurd h (by simp)
            · injection h1 with h1a h1b
              subst h1b
              rw [hidx] at h2
              exact Option.noConfusion h2
        · intro rest2 h1 h2
          injection h1 with h1a h1b
          subst h1b
          rw [hidx] at h2
          exact Option.noConfusion h2
        · refine ⟨formatKeyPath cidCast b32enc (rest.take n) (rest.drop (n + 1)), ?_, ?_, ?_⟩
          · simp [loggableKey, tryFormat_slash_some cidCast b32enc rest n hidx]
          · rw [tryFormat_slash_some cidCast b32enc rest n hidx]
            intro habs
            exact absurd habs (by simp)
          · intro hn
            rw [tryFormat_slash_some cidCast b32enc rest n hidx]
    · refine ⟨?_, ?_, ?_⟩
      · rw [tryFormat_noslash cidCast b32enc c0 rest hc]
        constructor
        · intro habs
          exact absurd habs (by simp)
        · rintro (h | ⟨rest2, h1, h2⟩)
          · exact absurd h (by simp)
          · injection h1 with h1a h1b
            exact absurd h1a hc
      · intro rest2 h1 h2
        injection h1 with h1a h1b
        exact absurd h1a hc
      · refine ⟨formatKeyPath cidCast b32enc "provider".toList (c0 :: rest), ?_, ?_, ?_⟩
        · simp [loggableKey, tryFormat_noslash cidCast b32enc c0 rest hc]
        · rw [tryFormat_noslash cidCast b32enc c0 rest hc]
          intro habs
          exact absurd habs (by simp)
        · intro hn
          rw [tryFormat_noslash cidCast b32enc c0 rest hc]

/-- C8 witness: the key "/x" starts with a slash and holds no second slash,
so formatting errs and hands back the original key. -/
theorem tryFormatLoggableKey_spec_w :
    (tryFormatLoggableKey (fun _ => none) (fun s => s) ['/', 'x']).1 = ['/', 'x'] :=
  (tryFormatLoggableKey_spec (fun _ => none) (fun s => s) ['/', 'x']).2.1 ['x'] rfl rfl

end DhtLookup
